import Mathlib

/-!
Shallow embedding of the dyndns reconciler (src/src/main.rs).

The program is a dynamic-DNS reconciler for AWS Route53: it fetches the
current external IP, lists the hosted zones, resolves the zone whose name
contains the requested domain, audits the A record `{subdomain}.{domain}.`
against the external IP, and conditionally upserts it with TTL 300.

The pure decision logic (`get_hosted_zone_id`, the response scan of
`check_hosted_zone`, the request built by `update_hosted_zone`, and the
dispatch in `main`) is embedded directly from the Rust source.  Network I/O
is factored out: the provider's responses (zone listing pages, the record
set list) are passed in as explicit data.  Rust panics reached through
`.expect(...)` are modelled as dedicated result constructors
(`panicMalformedIdentifier`, `panicEmptyRecord`); these are the failure
modes the specification names `MalformedIdentifierError` and
`EmptyRecordError` (the Rust code has no named error enum: it uses
`io::Error` values and `expect` panics).
-/

namespace DynDns

/-- Char-list analogue of Rust `str::starts_with` used to build substring
containment. -/
def leadsWith : List Char → List Char → Bool
  | [], _ => true
  | _ :: _, [] => false
  | a :: as, b :: bs => a = b && leadsWith as bs

/-- Naive substring search over char lists: `hasSub pat l` is true iff `pat`
occurs contiguously in `l`. -/
def hasSub (pat : List Char) : List Char → Bool
  | [] => leadsWith pat []
  | c :: cs => leadsWith pat (c :: cs) || hasSub pat cs

/-- Rust `str::contains` (substring containment), as used in
`get_hosted_zone_id` for `hosted_zone.name().contains(domain)`. -/
def strContains (s pat : String) : Bool := hasSub pat.data s.data

/-- Rust `str::split` with a single-character separator: `"".split` yields
one empty segment, a leading separator yields a leading empty segment. -/
def splitOnChar (sep : Char) : List Char → List (List Char)
  | [] => [[]]
  | c :: cs =>
    if c = sep then [] :: splitOnChar sep cs
    else
      match splitOnChar sep cs with
      | [] => [[c]]
      | w :: ws => (c :: w) :: ws

/-- Record kinds (`RrType` in the AWS SDK); only the constructors the
program and its environment need. -/
inductive RrType where
  | a
  | aaaa
  | cname
  | txt
  deriving DecidableEq

/-- A single resource record value (`ResourceRecord` in the AWS SDK). -/
structure ResourceRecord where
  value : String
  deriving DecidableEq

/-- A record set as returned by `list_resource_record_sets`: in the SDK the
`resource_records` field is an `Option<Vec<ResourceRecord>>`. -/
structure ResourceRecordSet where
  name : String
  rType : RrType
  ttl : Option Int := none
  resourceRecords : Option (List ResourceRecord) := none
  deriving DecidableEq

/-- A hosted zone as listed by the provider: a provider-namespaced
identifier (e.g. `/hostedzone/Z123`) and a fully-qualified name. -/
structure HostedZone where
  id : String
  name : String
  deriving DecidableEq

/-- The fully qualified target name `format!("{}.{}.", subdomain, domain)`
built by both `check_hosted_zone` and `update_hosted_zone`. -/
def full_domain_of (domain subdomain : String) : String :=
  subdomain ++ "." ++ domain ++ "."

/-- Result of `get_hosted_zone_id`: the bare zone id on success, the
`ErrorKind::NotFound` io error when no zone name contains the domain, or
the `expect` panic when `id.split("/").nth(2)` is absent (the failure the
spec names `MalformedIdentifierError`). -/
inductive ZoneIdResult where
  | ok (id : String)
  | zoneNotFoundError
  | panicMalformedIdentifier
  deriving DecidableEq

/-- The id extraction `hosted_zone.id().split("/").nth(2).expect(...)`
performed on the first matching zone. -/
def extract_zone_id (id : String) : ZoneIdResult :=
  match (splitOnChar '/' id.data).get? 2 with
  | some seg => .ok (String.mk seg)
  | none => .panicMalformedIdentifier

/-- `get_hosted_zone_id` from main.rs: scan the zone list in order and
return the extracted id of the first zone whose name contains `domain` as a
substring; `Err(NotFound)` when none does. -/
def get_hosted_zone_id (hosted_zones : List HostedZone) (domain : String) :
    ZoneIdResult :=
  match hosted_zones with
  | [] => .zoneNotFoundError
  | hz :: rest =>
    if strContains hz.name domain then extract_zone_id hz.id
    else get_hosted_zone_id rest domain

/-- Result of `check_hosted_zone`: `ok b` is `Ok(b)` (`b` = "needs
update"), `recordNotFoundError` the `ErrorKind::NotFound` io error when the
scan finds no record set named `full_domain`, and `panicEmptyRecord` the
`expect` panic when the matched set's `resource_records` is `None` (the
failure the spec names `EmptyRecordError`). -/
inductive CheckResult where
  | ok (needs_update : Bool)
  | recordNotFoundError
  | panicEmptyRecord
  deriving DecidableEq

/-- The inner loop of `check_hosted_zone` over the matched set's records:
it returns on the very first record (`Ok(true)` if its value differs from
the external IP, `Ok(false)` otherwise); on an empty vector it falls
through and the outer scan continues, signalled here by `none`. -/
def scan_record_values (records : List ResourceRecord)
    (external_ip : String) : Option Bool :=
  match records with
  | [] => none
  | r :: _ => if r.value ≠ external_ip then some true else some false

/-- The response scan of `check_hosted_zone` from main.rs, taking the
provider's `list_resource_record_sets` response as data: find a record set
whose name equals `full_domain` (the record kind is never inspected),
`expect`-panic if its `resource_records` is `None`, otherwise decide from
its first value; if the inner loop falls through, the outer loop continues;
if the whole scan finds nothing, return the NotFound error. -/
def check_hosted_zone (response : List ResourceRecordSet)
    (external_ip full_domain : String) : CheckResult :=
  match response with
  | [] => .recordNotFoundError
  | rrs :: rest =>
    if rrs.name = full_domain then
      match rrs.resourceRecords with
      | none => .panicEmptyRecord
      | some records =>
        match scan_record_values records external_ip with
        | some b => .ok b
        | none => check_hosted_zone rest external_ip full_domain
    else check_hosted_zone rest external_ip full_domain

/-- Change action of a Route53 change; the program only ever uses Upsert. -/
inductive ChangeAction where
  | upsert
  deriving DecidableEq

/-- One change of a change batch. -/
structure Change where
  action : ChangeAction
  resource_record_set : ResourceRecordSet
  deriving DecidableEq

/-- A change batch. -/
structure ChangeBatch where
  changes : List Change
  deriving DecidableEq

/-- The `change_resource_record_sets` request built by
`update_hosted_zone`. -/
structure ChangeRequest where
  hosted_zone_id : String
  change_batch : ChangeBatch
  deriving DecidableEq

/-- `update_hosted_zone` from main.rs, as the request it constructs: a
single-change batch whose one change upserts an A record named
`{subdomain}.{domain}.` with TTL 300 and the external IP as its only
value. -/
def update_hosted_zone (hosted_zone_id external_ip domain subdomain :
    String) : ChangeRequest :=
  { hosted_zone_id := hosted_zone_id
    change_batch :=
      { changes :=
          [{ action := .upsert
             resource_record_set :=
               { name := full_domain_of domain subdomain
                 rType := .a
                 ttl := some 300
                 resourceRecords := some [{ value := external_ip }] } }] } }

/-- The dispatch in `main`: the updater is invoked iff `check_hosted_zone`
returned `Ok(true)`; every error result propagates via `?` before the
update call is reached. -/
def run_invokes_update : CheckResult → Bool
  | .ok b => b
  | .recordNotFoundError => false
  | .panicEmptyRecord => false

/-- Modelled from the spec: the provider (AWS, outside this repository) may
truncate the zone listing into pages; a single `list_hosted_zones` call
returns only the first page. -/
structure ZoneListing where
  pages : List (List HostedZone)
  deriving DecidableEq

/-- Modelled from the spec: the first page of the truncated listing, which
is what one `list_hosted_zones` call returns. -/
def list_hosted_zones (l : ZoneListing) : List HostedZone :=
  l.pages.headD []

/-- `parse_host_info` from main.rs: issues one `list_hosted_zones` call and
pushes each returned zone into a vector; there is no pagination loop (the
response's truncation marker is never consulted). -/
def parse_host_info (l : ZoneListing) : List HostedZone :=
  (list_hosted_zones l).foldl (fun acc hz => acc ++ [hz]) []

/-- Modelled from the spec: all zones visible to the configured account,
i.e. the concatenation of every page of the truncated listing ("pagination
... must be fully drained before returning"). -/
def all_zones (l : ZoneListing) : List HostedZone :=
  l.pages.flatten

/-- Modelled from the spec: the provider's UPSERT semantics — "the provider
creates the record if absent or replaces it wholesale if present"; a record
set is identified by the pair (name, kind) within a zone. -/
def upsert_record_set (state : List ResourceRecordSet)
    (c : ResourceRecordSet) : List ResourceRecordSet :=
  if state.any (fun r => decide (r.name = c.name ∧ r.rType = c.rType)) then
    state.map (fun r => if r.name = c.name ∧ r.rType = c.rType then c else r)
  else state ++ [c]

/-! ### Helper lemmas -/

/-- Record sets whose names differ from the target are skipped by the
scan. -/
theorem check_hosted_zone_append (pre l : List ResourceRecordSet)
    (ip full : String) (h : ∀ r ∈ pre, r.name ≠ full) :
    check_hosted_zone (pre ++ l) ip full = check_hosted_zone l ip full := by
  induction pre with
  | nil => rfl
  | cons r rest ih =>
    have hr : r.name ≠ full := h r (by simp)
    rw [List.cons_append, check_hosted_zone, if_neg hr]
    exact ih fun x hx => h x (by simp [hx])

/-- Zones whose names do not contain the domain are skipped by zone
resolution. -/
theorem get_hosted_zone_id_append (pre l : List HostedZone) (domain : String)
    (h : ∀ w ∈ pre, strContains w.name domain = false) :
    get_hosted_zone_id (pre ++ l) domain = get_hosted_zone_id l domain := by
  induction pre with
  | nil => rfl
  | cons w ws ih =>
    have hw := h w (by simp)
    rw [List.cons_append, get_hosted_zone_id, hw]
    simp only [Bool.false_eq_true, if_false]
    exact ih fun x hx => h x (by simp [hx])

/-- After the name-keyed wholesale replacement, the scan reaches the new
record set first and reports no update needed. -/
theorem check_hosted_zone_map_replaced (state : List ResourceRecordSet)
    (ip full : String) (c : ResourceRecordSet) (hcn : c.name = full)
    (hcr : c.resourceRecords = some [{ value := ip }])
    (htyped : ∀ r ∈ state, r.name = full → r.rType = c.rType)
    (hex : ∃ r ∈ state, r.name = full) :
    check_hosted_zone
        (state.map fun r =>
          if r.name = c.name ∧ r.rType = c.rType then c else r)
        ip full = .ok false := by
  induction state with
  | nil => simp at hex
  | cons r rest ih =>
    by_cases hr : r.name = full
    · have ht : r.rType = c.rType := htyped r (by simp) hr
      have hcond : r.name = c.name ∧ r.rType = c.rType := ⟨hcn ▸ hr, ht⟩
      simp only [List.map_cons, if_pos hcond]
      rw [check_hosted_zone, if_pos hcn, hcr]
      simp [scan_record_values]
    · simp only [List.map_cons]
      have hcond : ¬(r.name = c.name ∧ r.rType = c.rType) := by
        rintro ⟨h1, _⟩; exact hr (hcn ▸ h1)
      rw [if_neg hcond, check_hosted_zone, if_neg hr]
      refine ih (fun x hx => htyped x (by simp [hx])) ?_
      obtain ⟨x, hx, hxn⟩ := hex
      rcases List.mem_cons.mp hx with h | h
      · exact absurd (h ▸ hxn) hr
      · exact ⟨x, h, hxn⟩

/-! ### Claims -/

/-- C1: for a matched record set with at least one address value, the audit
returns false (no update needed) when every address value equals the
external IP, and true (update needed) as soon as the first compared value
differs from the external IP. -/
theorem claim_C1_first_value_decision (pre rest : List ResourceRecordSet)
    (m : ResourceRecordSet) (ip full : String) (v : ResourceRecord)
    (vs : List ResourceRecord) (hpre : ∀ r ∈ pre, r.name ≠ full)
    (hname : m.name = full) (hrecs : m.resourceRecords = some (v :: vs)) :
    ((∀ x ∈ v :: vs, x.value = ip) →
      check_hosted_zone (pre ++ m :: rest) ip full = .ok false) ∧
    (v.value ≠ ip →
      check_hosted_zone (pre ++ m :: rest) ip full = .ok true) := by
  rw [check_hosted_zone_append pre _ ip full hpre]
  constructor
  · intro hall
    have hv : v.value = ip := hall v (by simp)
    simp [check_hosted_zone, hname, hrecs, scan_record_values, hv]
  · intro hv
    simp [check_hosted_zone, hname, hrecs, scan_record_values, hv]

/-- Witness for C1: a single matching A record holding exactly the external
IP is classified as up to date. -/
theorem claim_C1_first_value_decision_witness :
    check_hosted_zone
        ([] ++ ⟨"home.example.com.", .a, some 300, some [⟨"1.2.3.4"⟩]⟩ :: [])
        "1.2.3.4" "home.example.com." = .ok false :=
  (claim_C1_first_value_decision [] []
      ⟨"home.example.com.", .a, some 300, some [⟨"1.2.3.4"⟩]⟩
      "1.2.3.4" "home.example.com." ⟨"1.2.3.4"⟩ []
      (by simp) rfl rfl).1 (by decide)

/-- C2 counterexample: with record values `["1.2.3.4", "5.6.7.8"]` and
external IP `1.2.3.4` the audit reports up to date (false) even though not
every address value equals the external IP, refuting the claimed
"every value" equivalence. -/
theorem claim_C2_multi_value_counterexample :
    check_hosted_zone
        [⟨"home.example.com.", .a, some 300,
            some [⟨"1.2.3.4"⟩, ⟨"5.6.7.8"⟩]⟩]
        "1.2.3.4" "home.example.com." = .ok false ∧
    ¬ (∀ x ∈ [ResourceRecord.mk "1.2.3.4", ResourceRecord.mk "5.6.7.8"],
        x.value = "1.2.3.4") := by
  decide

/-- C2 (amended): a record is classified up to date (false) iff the first
record set bearing the fully-qualified target name exists, has at least one
address value, and its FIRST value equals the external IP; values beyond
the first are never inspected. -/
theorem claim_C2_first_value_iff (pre rest : List ResourceRecordSet)
    (m : ResourceRecordSet) (ip full : String) (v : ResourceRecord)
    (vs : List ResourceRecord) (hpre : ∀ r ∈ pre, r.name ≠ full)
    (hname : m.name = full) (hrecs : m.resourceRecords = some (v :: vs)) :
    check_hosted_zone (pre ++ m :: rest) ip full = .ok false ↔
      v.value = ip := by
  rw [check_hosted_zone_append pre _ ip full hpre]
  by_cases hv : v.value = ip <;>
    simp [check_hosted_zone, hname, hrecs, scan_record_values, hv]

/-- Witness for the amended C2: a record whose first value matches but whose
second value differs is still classified up to date. -/
theorem claim_C2_first_value_iff_witness :
    check_hosted_zone
        ([] ++ ⟨"home.example.com.", .a, some 300,
            some [⟨"1.2.3.4"⟩, ⟨"5.6.7.8"⟩]⟩ :: [])
        "1.2.3.4" "home.example.com." = .ok false :=
  (claim_C2_first_value_iff [] []
      ⟨"home.example.com.", .a, some 300, some [⟨"1.2.3.4"⟩, ⟨"5.6.7.8"⟩]⟩
      "1.2.3.4" "home.example.com." ⟨"1.2.3.4"⟩ [⟨"5.6.7.8"⟩]
      (by simp) rfl rfl).mpr rfl

/-- C3: zone resolution returns the identifier derived from the first zone
in list order whose name contains the domain as a substring, fails with the
zone-not-found error when no zone name contains it, and is order-dependent
(reordering the list can change which zone is selected). -/
theorem claim_C3_first_match_resolution :
    (∀ (pre rest : List HostedZone) (z : HostedZone) (domain : String),
      (∀ w ∈ pre, strContains w.name domain = false) →
      strContains z.name domain = true →
      get_hosted_zone_id (pre ++ z :: rest) domain = extract_zone_id z.id) ∧
    (∀ (zones : List HostedZone) (domain : String),
      (∀ w ∈ zones, strContains w.name domain = false) →
      get_hosted_zone_id zones domain = .zoneNotFoundError) ∧
    get_hosted_zone_id
        [⟨"/hostedzone/Z111", "example.com."⟩,
          ⟨"/hostedzone/Z222", "sub.example.com."⟩] "example.com" ≠
      get_hosted_zone_id
        [⟨"/hostedzone/Z222", "sub.example.com."⟩,
          ⟨"/hostedzone/Z111", "example.com."⟩] "example.com" := by
  refine ⟨?_, ?_, by decide⟩
  · intro pre rest z domain hpre hz
    rw [get_hosted_zone_id_append pre _ domain hpre, get_hosted_zone_id, hz]
    simp
  · intro zones domain h
    have h2 := get_hosted_zone_id_append zones [] domain h
    rw [List.append_nil] at h2
    exact h2

/-- Witness for C3: a singleton list whose zone name contains the domain
resolves to that zone's extracted identifier. -/
theorem claim_C3_first_match_resolution_witness :
    get_hosted_zone_id
        ([] ++ ⟨"/hostedzone/Z111", "example.com."⟩ :: []) "example.com" =
      extract_zone_id "/hostedzone/Z111" :=
  claim_C3_first_match_resolution.1 [] []
    ⟨"/hostedzone/Z111", "example.com."⟩ "example.com" (by simp) (by decide)

/-- C4: for every zone id, external IP, domain and subdomain, the update
request is a single-change batch whose one change upserts an A record named
`{subdomain}.{domain}.` with TTL exactly 300 and the external IP as its
single value. -/
theorem claim_C4_upsert_request_shape (zid ip domain subdomain : String) :
    (update_hosted_zone zid ip domain subdomain).hosted_zone_id = zid ∧
    (update_hosted_zone zid ip domain subdomain).change_batch.changes =
      [{ action := .upsert
         resource_record_set :=
           { name := subdomain ++ "." ++ domain ++ "."
             rType := .a
             ttl := some 300
             resourceRecords := some [{ value := ip }] } }] :=
  ⟨rfl, rfl⟩

/-- C5 counterexample: the unrestricted round trip fails. A pre-state
holding a TXT record set bearing the target name obeys upsert semantics —
the upsert is keyed by (name, kind), so the TXT set survives the wholesale
replacement untouched — yet after applying exactly the record set that
`update_hosted_zone` constructs, the type-blind audit selects the TXT set
first and reports an update needed (`Ok(true)`), not `Ok(false)`. -/
theorem claim_C5_round_trip_counterexample :
    (update_hosted_zone "Z111" "1.2.3.4" "example.com" "home").change_batch.changes =
      [⟨.upsert, ⟨full_domain_of "example.com" "home", .a, some 300,
          some [⟨"1.2.3.4"⟩]⟩⟩] ∧
    check_hosted_zone
        (upsert_record_set
          [⟨"home.example.com.", .txt, some 300, some [⟨"v=spf1"⟩]⟩]
          ⟨full_domain_of "example.com" "home", .a, some 300,
            some [⟨"1.2.3.4"⟩]⟩)
        "1.2.3.4" (full_domain_of "example.com" "home") = .ok true := by
  decide

/-- C5 (amended): round-trip restricted to states in which the target name
is carried only by address records — when the constructed upsert is applied
to such a provider state under upsert semantics (wholesale replacement of
the record keyed by name and kind), a subsequent audit with the same IP
reports no update needed. Without that restriction a same-named non-address
record set survives the upsert and, being selected by the type-blind audit,
makes the round trip fail. -/
theorem claim_C5_round_trip (zid ip domain subdomain : String)
    (state : List ResourceRecordSet)
    (htyped : ∀ r ∈ state,
      r.name = full_domain_of domain subdomain → r.rType = RrType.a) :
    ∀ c ∈ (update_hosted_zone zid ip domain subdomain).change_batch.changes,
      check_hosted_zone (upsert_record_set state c.resource_record_set) ip
        (full_domain_of domain subdomain) = .ok false := by
  intro c hc
  have hc2 : c =
      { action := .upsert
        resource_record_set :=
          { name := full_domain_of domain subdomain
            rType := .a
            ttl := some 300
            resourceRecords := some [{ value := ip }] } } := by
    simpa [update_hosted_zone] using hc
  subst hc2
  rw [upsert_record_set]
  set full := full_domain_of domain subdomain
  by_cases hany : ∃ r ∈ state, r.name = full ∧ r.rType = RrType.a
  · rw [if_pos (by simpa [List.any_eq_true] using hany)]
    obtain ⟨r0, hr0, hn0, _⟩ := hany
    exact check_hosted_zone_map_replaced state ip full
      ⟨full, .a, some 300, some [⟨ip⟩]⟩ rfl rfl
      (fun r hr hn => htyped r hr hn) ⟨r0, hr0, hn0⟩
  · rw [if_neg (by simpa [List.any_eq_true] using hany)]
    have hnone : ∀ r ∈ state, r.name ≠ full := by
      intro r hr hn
      exact hany ⟨r, hr, hn, htyped r hr hn⟩
    rw [check_hosted_zone_append state _ ip full hnone]
    simp [check_hosted_zone, scan_record_values]

/-- Witness for C5: upserting `1.2.3.4` over a stale single-value A record
leaves a state the audit classifies as up to date. -/
theorem claim_C5_round_trip_witness :
    check_hosted_zone
        (upsert_record_set
          [⟨"home.example.com.", .a, some 300, some [⟨"9.9.9.9"⟩]⟩]
          ⟨"home.example.com.", .a, some 300, some [⟨"1.2.3.4"⟩]⟩)
        "1.2.3.4" (full_domain_of "example.com" "home") = .ok false :=
  claim_C5_round_trip "Z111" "1.2.3.4" "example.com" "home"
    [⟨"home.example.com.", .a, some 300, some [⟨"9.9.9.9"⟩]⟩] (by decide)
    ⟨.upsert, ⟨"home.example.com.", .a, some 300, some [⟨"1.2.3.4"⟩]⟩⟩
    (by decide)

/-- C6: when no record set in the provider response bears the
fully-qualified target name, the audit fails with the record-not-found
error, and the run dispatch never invokes the updater on that result. -/
theorem claim_C6_record_not_found (response : List ResourceRecordSet)
    (ip full : String) (h : ∀ r ∈ response, r.name ≠ full) :
    check_hosted_zone response ip full = .recordNotFoundError ∧
    run_invokes_update (check_hosted_zone response ip full) = false := by
  have h2 := check_hosted_zone_append response [] ip full h
  rw [List.append_nil] at h2
  have h3 : check_hosted_zone response ip full = .recordNotFoundError := h2
  exact ⟨h3, by rw [h3]; rfl⟩

/-- Witness for C6: a response holding only a differently-named record set
yields the record-not-found error and no update. -/
theorem claim_C6_record_not_found_witness :
    check_hosted_zone [⟨"other.example.com.", .a, some 300, some [⟨"1.2.3.4"⟩]⟩]
        "1.2.3.4" "home.example.com." = .recordNotFoundError ∧
    run_invokes_update
        (check_hosted_zone
          [⟨"other.example.com.", .a, some 300, some [⟨"1.2.3.4"⟩]⟩]
          "1.2.3.4" "home.example.com.") = false :=
  claim_C6_record_not_found
    [⟨"other.example.com.", .a, some 300, some [⟨"1.2.3.4"⟩]⟩]
    "1.2.3.4" "home.example.com." (by decide)

/-- C7 counterexample: a matching record set whose `resource_records` field
is present but holds zero values does NOT produce the empty-record failure;
the scan skips it and this response ends in the record-not-found error. -/
theorem claim_C7_empty_vector_counterexample :
    check_hosted_zone [⟨"home.example.com.", .a, some 300, some []⟩]
        "1.2.3.4" "home.example.com." ≠ .panicEmptyRecord ∧
    check_hosted_zone [⟨"home.example.com.", .a, some 300, some []⟩]
        "1.2.3.4" "home.example.com." = .recordNotFoundError := by
  decide

/-- C7 (amended): when the first record set bearing the target name has its
address values ABSENT (field missing), the audit fails with the
empty-record failure (the `expect` panic the spec names `EmptyRecordError`);
when the values are present but the vector is empty, that record set is
skipped and the scan continues over the remaining record sets. -/
theorem claim_C7_empty_record_behaviour (pre rest : List ResourceRecordSet)
    (m : ResourceRecordSet) (ip full : String)
    (hpre : ∀ r ∈ pre, r.name ≠ full) (hname : m.name = full) :
    (m.resourceRecords = none →
      check_hosted_zone (pre ++ m :: rest) ip full = .panicEmptyRecord) ∧
    (m.resourceRecords = some [] →
      check_hosted_zone (pre ++ m :: rest) ip full =
        check_hosted_zone rest ip full) := by
  rw [check_hosted_zone_append pre _ ip full hpre]
  constructor <;> intro hrec <;>
    simp [check_hosted_zone, hname, hrec, scan_record_values]

/-- Witness for the amended C7: a matching record set with the values field
absent produces the empty-record failure. -/
theorem claim_C7_empty_record_behaviour_witness :
    check_hosted_zone
        ([] ++ ⟨"home.example.com.", .a, some 300, none⟩ :: [])
        "1.2.3.4" "home.example.com." = .panicEmptyRecord :=
  (claim_C7_empty_record_behaviour [] []
      ⟨"home.example.com.", .a, some 300, none⟩ "1.2.3.4" "home.example.com."
      (by simp) rfl).1 rfl

/-- C8: when the first matching zone's raw identifier has fewer than three
slash-separated segments, zone resolution ends in the malformed-identifier
failure (the `expect` panic the spec names `MalformedIdentifierError`)
rather than succeeding. -/
theorem claim_C8_malformed_identifier (pre rest : List HostedZone)
    (z : HostedZone) (domain : String)
    (hpre : ∀ w ∈ pre, strContains w.name domain = false)
    (hz : strContains z.name domain = true)
    (hshort : (splitOnChar '/' z.id.data).length < 3) :
    get_hosted_zone_id (pre ++ z :: rest) domain =
      .panicMalformedIdentifier := by
  rw [get_hosted_zone_id_append pre _ domain hpre, get_hosted_zone_id, hz]
  have hnone : (splitOnChar '/' z.id.data)[2]? = none :=
    List.getElem?_eq_none (by omega)
  simp [extract_zone_id, hnone]

/-- Witness for C8: a matching zone whose raw id has no slashes at all
triggers the malformed-identifier failure. -/
theorem claim_C8_malformed_identifier_witness :
    get_hosted_zone_id ([] ++ ⟨"Z123", "example.com."⟩ :: []) "example.com" =
      .panicMalformedIdentifier :=
  claim_C8_malformed_identifier [] [] ⟨"Z123", "example.com."⟩ "example.com"
    (by simp) (by decide) (by decide)

/-- C9: `parse_host_info` performs a single `list_hosted_zones` call and
never drains pagination: on a listing truncated into two pages it returns
only the first page, omitting a zone that the fully-drained listing
contains. -/
theorem claim_C9_pagination_not_drained :
    parse_host_info
        ⟨[[⟨"/hostedzone/Z111", "a.com."⟩], [⟨"/hostedzone/Z222", "b.com."⟩]]⟩ =
      [⟨"/hostedzone/Z111", "a.com."⟩] ∧
    HostedZone.mk "/hostedzone/Z222" "b.com." ∈
      all_zones
        ⟨[[⟨"/hostedzone/Z111", "a.com."⟩], [⟨"/hostedzone/Z222", "b.com."⟩]]⟩ ∧
    HostedZone.mk "/hostedzone/Z222" "b.com." ∉
      parse_host_info
        ⟨[[⟨"/hostedzone/Z111", "a.com."⟩], [⟨"/hostedzone/Z222", "b.com."⟩]]⟩ := by
  decide

/-- C10: the audit selects a record set by name alone and never inspects
its kind — a non-address record set bearing the target name, preceding any
address record set of that name, is the one selected, and its first value
is what gets compared against the external IP. -/
theorem claim_C10_type_blind_selection (pre rest : List ResourceRecordSet)
    (m : ResourceRecordSet) (ip full : String) (v : ResourceRecord)
    (vs : List ResourceRecord) (hpre : ∀ r ∈ pre, r.name ≠ full)
    (hname : m.name = full) (_htype : m.rType ≠ RrType.a)
    (hrecs : m.resourceRecords = some (v :: vs)) :
    check_hosted_zone (pre ++ m :: rest) ip full =
      .ok (decide (v.value ≠ ip)) := by
  rw [check_hosted_zone_append pre _ ip full hpre]
  by_cases hv : v.value = ip <;>
    simp [check_hosted_zone, hname, hrecs, scan_record_values, hv]

/-- Witness for C10: a TXT record set named like the target and listed
before the A record set is selected; its value differs from the IP, so the
audit reports an update needed. -/
theorem claim_C10_type_blind_selection_witness :
    check_hosted_zone
        ([] ++ ⟨"home.example.com.", .txt, some 300, some [⟨"v=spf1"⟩]⟩ ::
          [⟨"home.example.com.", .a, some 300, some [⟨"1.2.3.4"⟩]⟩])
        "1.2.3.4" "home.example.com." = .ok true :=
  claim_C10_type_blind_selection []
    [⟨"home.example.com.", .a, some 300, some [⟨"1.2.3.4"⟩]⟩]
    ⟨"home.example.com.", .txt, some 300, some [⟨"v=spf1"⟩]⟩
    "1.2.3.4" "home.example.com." ⟨"v=spf1"⟩ []
    (by simp) rfl (by decide) rfl

end DynDns
